import Mathlib

/-!
Verification development for the dbus-broker core sources
(`src/match.c`, `src/peer.c`).  C strings are modelled as `List Char`
(`CStr`); nullable `const char *` values as `Option CStr`; `uint64_t`
ids as `Nat` (all arithmetic on ids in the sources is comparison only,
no overflow is reachable).  External collaborators (policy gate, name
registry, connection layer, user accounting) are passed in as oracle
parameters where a function under scrutiny consults them.
-/

/-- Message-type constants from the D-Bus protocol header
(`dbus/protocol.h`). -/
def DBUS_MESSAGE_TYPE_INVALID : Nat := 0

def DBUS_MESSAGE_TYPE_METHOD_CALL : Nat := 1

def DBUS_MESSAGE_TYPE_METHOD_RETURN : Nat := 2

def DBUS_MESSAGE_TYPE_ERROR : Nat := 3

def DBUS_MESSAGE_TYPE_SIGNAL : Nat := 4

/-- `ADDRESS_ID_INVALID` is `(uint64_t)-1` (`dbus/address.h`). -/
def ADDRESS_ID_INVALID : Nat := 2 ^ 64 - 1

/-- C strings, one `Char` per byte. -/
abbrev CStr := List Char

/-- `c_string_equal` from c-string.h: both NULL compare equal, NULL
differs from every string, otherwise `strcmp` equality. -/
def c_string_equal (a b : Option CStr) : Bool :=
  match a, b with
  | none, none => true
  | none, some _ => false
  | some _, none => false
  | some x, some y => x == y

/-- `c_string_prefix(str, pfx)` from c-string.h: the tail of `str`
past `pfx` when `pfx` is a prefix of `str`, otherwise NULL. -/
def c_string_pfx (str pfx : CStr) : Option CStr :=
  if pfx.isPrefixOf str then some (str.drop pfx.length) else none

/-- `match_string_prefix(string, prefix, delimiter, delimiter_included)`
from src/match.c.  The C pointer-equality fast path `string == prefix`
is the both-NULL case here (the two arguments never alias the same
buffer in the callers: one comes from the rule buffer, the other from
the message).  `tail == string` holds exactly when the prefix is empty,
and `*(tail - 1)` is the last character of the prefix. -/
def match_string_pfx (string pfx : Option CStr) (delimiter : Char)
    (delimiter_included : Bool) : Bool :=
  match string, pfx with
  | none, none => true
  | none, some _ => false
  | some _, none => false
  | some s, some p =>
    match c_string_pfx s p with
    | none => false
    | some tail =>
      if delimiter_included then
        if p.isEmpty || (!tail.isEmpty && !(p.getLast? == some delimiter)) then
          false
        else
          true
      else
        if !tail.isEmpty && !(tail.head? == some delimiter) then false else true

/-- `MatchFilter` from match.h: the per-message fields a rule is
matched against.  `args`/`argpaths` model the 64-entry arrays as total
functions; only indices below 64 are ever consulted. -/
structure MatchFilter where
  type : Nat
  destination : Nat
  sender : Nat
  interface : Option CStr
  member : Option CStr
  path : Option CStr
  args : Nat → Option CStr
  argpaths : Nat → Option CStr

/-- `MatchRuleKeys` from match.h: the canonicalized parse of a match
rule string. -/
structure MatchRuleKeys where
  sender : Option CStr
  destination : Option CStr
  filter : MatchFilter
  path_namespace : Option CStr
  arg0namespace : Option CStr
  eavesdrop : Bool

/-- `match_rule_keys_match_filter` from src/match.c, clause for clause.
Note the argument order of the two `match_string_prefix` calls in the
source: the rule's `path_namespace`/`arg0namespace` value is passed as
the *string* and the message field as the *prefix*. -/
def match_rule_keys_match_filter (keys : MatchRuleKeys)
    (filter : MatchFilter) : Bool :=
  if keys.filter.type != DBUS_MESSAGE_TYPE_INVALID &&
      keys.filter.type != filter.type then
    false
  else if keys.filter.destination != ADDRESS_ID_INVALID &&
      keys.filter.destination != filter.destination then
    false
  else if keys.filter.sender != ADDRESS_ID_INVALID &&
      keys.filter.sender != filter.sender then
    false
  else if keys.filter.interface.isSome &&
      !(c_string_equal keys.filter.interface filter.interface) then
    false
  else if keys.filter.member.isSome &&
      !(c_string_equal keys.filter.member filter.member) then
    false
  else if keys.filter.path.isSome &&
      !(c_string_equal keys.filter.path filter.path) then
    false
  else if keys.path_namespace.isSome &&
      !(match_string_pfx keys.path_namespace filter.path '/' false) then
    false
  else if keys.arg0namespace.isSome &&
      !(match_string_pfx keys.arg0namespace (filter.args 0) '.' false) then
    false
  else
    (List.range 64).all fun i =>
      if (keys.filter.args i).isSome &&
          !(c_string_equal (keys.filter.args i) (filter.args i)) then
        false
      else if (keys.filter.argpaths i).isSome then
        match_string_pfx (filter.argpaths i) (keys.filter.argpaths i) '/' true ||
          match_string_pfx (keys.filter.argpaths i) (filter.argpaths i) '/' true
      else
        true

/-- A `MatchFilter` with every field unset, as built by
`MATCH_FILTER_INIT`. -/
def emptyFilter : MatchFilter :=
  { type := DBUS_MESSAGE_TYPE_INVALID
    destination := ADDRESS_ID_INVALID
    sender := ADDRESS_ID_INVALID
    interface := none
    member := none
    path := none
    args := fun _ => none
    argpaths := fun _ => none }

/-- `MatchRuleKeys` with every key unset, as zero-initialized by the
callers of `match_rule_keys_parse` and then stamped with the three
invalid sentinels by the parser itself. -/
def emptyKeys : MatchRuleKeys :=
  { sender := none
    destination := none
    filter := emptyFilter
    path_namespace := none
    arg0namespace := none
    eavesdrop := false }

/-- The rule of the spec scenario: `type='signal',arg0namespace='a.b'`. -/
def c1Keys : MatchRuleKeys :=
  { emptyKeys with
    arg0namespace := some "a.b".data
    filter := { emptyFilter with type := DBUS_MESSAGE_TYPE_SIGNAL } }

/-- The parsed keys of the rule string `type='signal'`. -/
def c1SignalKeys : MatchRuleKeys :=
  { emptyKeys with
    filter := { emptyFilter with type := DBUS_MESSAGE_TYPE_SIGNAL } }

/-- The signal of the spec scenario, with `args[0] = "a.b.c"`. -/
def c1Filter : MatchFilter :=
  { emptyFilter with
    type := DBUS_MESSAGE_TYPE_SIGNAL
    sender := 7
    args := fun n => if n == 0 then some "a.b.c".data else none }

/-- The same signal with `args[0] = "a.b"`: the message argument is a
proper dot-bounded prefix of the rule value. -/
def c1FilterRev : MatchFilter :=
  { c1Filter with args := fun n => if n == 0 then some "a.b".data else none }

/-- A rule with `path_namespace='/a'`. -/
def c2Keys : MatchRuleKeys :=
  { emptyKeys with path_namespace := some "/a".data }

/-- A message with `path = "/a/b"`. -/
def c2Filter : MatchFilter :=
  { emptyFilter with sender := 7, path := some "/a/b".data }

/-- A rule with `path_namespace='/a/b'` and a message with `path="/a"`. -/
def c2KeysRev : MatchRuleKeys :=
  { emptyKeys with path_namespace := some "/a/b".data }

def c2FilterRev : MatchFilter :=
  { emptyFilter with sender := 7, path := some "/a".data }

/-- A match rule as linked into a registry list for dispatch: its keys
together with the id of the peer that owns it (the receiver,
`c_container_of(rule->owner, Peer, owned_matches)` in src/peer.c). -/
structure RegRule where
  keys : MatchRuleKeys
  owner_id : Nat

/-- `MatchRegistry` from match.h: the three linked lists of rules. -/
structure MatchRegistry where
  rule_list : List RegRule
  eavesdrop_list : List RegRule
  monitor_list : List RegRule

/-- Functional rendering of the cursor pair
`match_rule_next`/`match_rule_next_match` (src/match.c): the sequence
of rules the iteration yields is exactly the eavesdrop list followed —
only when the filter carries no explicit destination — by the regular
rule list, restricted to rules whose keys match the filter. -/
def match_rule_next_match_list (registry : MatchRegistry)
    (filter : MatchFilter) : List RegRule :=
  let unicast := filter.destination != ADDRESS_ID_INVALID
  let visited :=
    if unicast then registry.eavesdrop_list
    else registry.eavesdrop_list ++ registry.rule_list
  visited.filter fun rule => match_rule_keys_match_filter rule.keys filter

/-- Functional rendering of `match_rule_next_monitor_match`
(src/match.c): the cursor starts at the head of the monitor list and
the loop runs while the cursor differs from `c_list_last_entry`, so
the last element of the list is never tested — the iteration yields
the matching rules of `monitor_list` with its last element dropped. -/
def match_rule_next_monitor_match_list (registry : MatchRegistry)
    (filter : MatchFilter) : List RegRule :=
  registry.monitor_list.dropLast.filter fun rule =>
    match_rule_keys_match_filter rule.keys filter

/-- `peer_broadcast_to_matches` from src/peer.c.  The policy gate
(`peer_policy_check_send`/`peer_policy_check_receive`, external) is
abstracted by two oracles keyed by the receiving peer's id; the result
is the list of receiver ids whose connection gets the message
enqueued, in iteration order.  A rule is skipped when its owner is the
filter's explicit destination, or when either policy check denies. -/
def peer_broadcast_to_matches (send_allowed recv_allowed : Nat → Bool)
    (registry : MatchRegistry) (filter : MatchFilter) : List Nat :=
  (match_rule_next_match_list registry filter).filterMap fun rule =>
    if filter.destination == rule.owner_id then none
    else if !send_allowed rule.owner_id then none
    else if !recv_allowed rule.owner_id then none
    else some rule.owner_id

/-- `CONNECTION_E_QUOTA` from util/connection.h (external header, not
under src/).  Modelled from the spec: connection codes are `{OK,
QUOTA, ...}` with 0 for success, so the QUOTA code is nonzero. -/
def CONNECTION_E_QUOTA : Nat := 1

/-- `POLICY_E_ACCESS_DENIED` from policy.h (external, nonzero). -/
def POLICY_E_ACCESS_DENIED : Nat := 1

/-- `REPLY_E_EXISTS` / `REPLY_E_QUOTA` from reply.h (external,
distinct nonzero codes). -/
def REPLY_E_EXISTS : Nat := 1

def REPLY_E_QUOTA : Nat := 2

/-- `NAME_E_*` codes from name.h (external, distinct nonzero codes). -/
def NAME_E_QUOTA : Nat := 1

def NAME_E_ALREADY_OWNER : Nat := 2

def NAME_E_IN_QUEUE : Nat := 3

def NAME_E_EXISTS : Nat := 4

def NAME_E_NOT_FOUND : Nat := 5

def NAME_E_NOT_OWNER : Nat := 6

/-- The `PEER_E_*` result codes of peer.h that the functions embedded
here can produce; `folded r` stands for `error_fold(r)` on a fatal
collaborator error `r`. -/
inductive PeerResult where
  | ok
  | QUOTA
  | EXPECTED_REPLY_EXISTS
  | RECEIVE_DENIED
  | SEND_DENIED
  | NAME_RESERVED
  | NAME_UNIQUE
  | NAME_REFUSED
  | NAME_ALREADY_OWNER
  | NAME_IN_QUEUE
  | NAME_EXISTS
  | NAME_NOT_FOUND
  | NAME_NOT_OWNER
  | folded (r : Nat)
deriving DecidableEq, Repr

/-- `peer_queue_call` from src/peer.c with its collaborators abstracted
as result-code oracles (0 is success everywhere): `reply_slot_new` for
the reply tracker, `check_receive`/`check_send` for the policy gate,
`connection_queue` for the receiver's connection.  The reply slot is
allocated only for reply-expecting method calls from a sender that has
a reply owner.  The final eavesdrop fan-out (`peer_broadcast`) only
propagates fatal errors and is omitted.  The connection-queue error
branch is embedded exactly as written in the source, line 673: the
condition tests the constant `CONNECTION_E_QUOTA` itself, not the
returned code `r`. -/
def peer_queue_call (reply_slot_new check_receive check_send
    connection_queue : Nat) (msg_type : Nat) (msg_no_reply_expected : Bool)
    (sender_has_replies : Bool) : PeerResult :=
  if sender_has_replies && (msg_type == DBUS_MESSAGE_TYPE_METHOD_CALL) &&
      !msg_no_reply_expected &&
      (if reply_slot_new == REPLY_E_EXISTS then true
       else if reply_slot_new == REPLY_E_QUOTA then true
       else reply_slot_new != 0) then
    if reply_slot_new == REPLY_E_EXISTS then .EXPECTED_REPLY_EXISTS
    else if reply_slot_new == REPLY_E_QUOTA then .QUOTA
    else .folded reply_slot_new
  else if check_receive == POLICY_E_ACCESS_DENIED then .RECEIVE_DENIED
  else if check_receive != 0 then .folded check_receive
  else if check_send == POLICY_E_ACCESS_DENIED then .SEND_DENIED
  else if check_send != 0 then .folded check_send
  else if connection_queue != 0 then
    if CONNECTION_E_QUOTA != 0 then .QUOTA
    else .folded connection_queue
  else .ok

/-- `peer_request_name` from src/peer.c.  The policy gate
(`peer_policy_check_own`) and the name registry
(`name_registry_request_name`) are abstracted as result-code oracles;
the two Booleans in the result record whether the policy gate
respectively the name registry were reached at all (the registry is
only ever mutated inside `name_registry_request_name`). -/
def peer_request_name (check_own registry_request : Nat) (name : CStr) :
    PeerResult × Bool × Bool :=
  if name == "org.freedesktop.DBus".data then (.NAME_RESERVED, false, false)
  else if name.head? == some ':' then (.NAME_UNIQUE, false, false)
  else if check_own == POLICY_E_ACCESS_DENIED then (.NAME_REFUSED, true, false)
  else if check_own != 0 then (.folded check_own, true, false)
  else if registry_request == NAME_E_QUOTA then (.QUOTA, true, true)
  else if registry_request == NAME_E_ALREADY_OWNER then
    (.NAME_ALREADY_OWNER, true, true)
  else if registry_request == NAME_E_IN_QUEUE then (.NAME_IN_QUEUE, true, true)
  else if registry_request == NAME_E_EXISTS then (.NAME_EXISTS, true, true)
  else if registry_request != 0 then (.folded registry_request, true, true)
  else (.ok, true, true)

/-- `peer_release_name` from src/peer.c; the name registry
(`name_registry_release_name`) is an oracle, and the Boolean records
whether it was reached. -/
def peer_release_name (registry_release : Nat) (name : CStr) :
    PeerResult × Bool :=
  if name == "org.freedesktop.DBus".data then (.NAME_RESERVED, false)
  else if name.head? == some ':' then (.NAME_UNIQUE, false)
  else if registry_release == NAME_E_NOT_FOUND then (.NAME_NOT_FOUND, true)
  else if registry_release == NAME_E_NOT_OWNER then (.NAME_NOT_OWNER, true)
  else if registry_release != 0 then (.folded registry_release, true)
  else (.ok, true)

/-- A peer as far as the peer registry is concerned: its id and its
`registered` flag (src/peer.c). -/
structure Peer where
  id : Nat
  registered : Bool
deriving DecidableEq, Repr

/-- `PeerRegistry` from peer.h: the peer tree (modelled as a list of
peers with pairwise-distinct ids) and the monotonic id allocator. -/
structure PeerRegistry where
  peer_tree : List Peer
  ids : Nat

/-- `peer_registry_find_peer` from src/peer.c: look the id up in the
tree, then `return peer && peer->registered ? peer : NULL`. -/
def peer_registry_find_peer (registry : PeerRegistry) (id : Nat) :
    Option Peer :=
  match registry.peer_tree.find? (fun peer => peer.id == id) with
  | some peer => if peer.registered then some peer else none
  | none => none

/-- `Address` from dbus/address.h: the classification of an address
string. -/
inductive Address where
  | id (n : Nat)
  | name (s : CStr)
  | other
deriving DecidableEq, Repr

/-- Digit test, `*key >= '0' && *key <= '9'` in C. -/
def is_digit (c : Char) : Bool := 48 ≤ c.toNat && c.toNat ≤ 57

/-- Numeric value of a digit string. -/
def digits_to_nat (s : CStr) : Nat :=
  s.foldl (fun a c => a * 10 + (c.toNat - 48)) 0

/-- Modelled from the spec: `address_from_string` lives in
src/dbus/address.c, which is not under src/.  Per §6 ("unique-ids are
strings `\":<u64>.<u64>\"`"), scenario (e) (rule `sender=':1.999'`
keyed on peer id 999) and §4.6 (a peer's unique name is derived from
its id), a string `\":1.<u64>\"` is a unique-id address carrying that
id; other strings starting with `':'` are OTHER, and all remaining
strings are names. -/
def address_from_string (s : CStr) : Address :=
  match s with
  | ':' :: '1' :: '.' :: rest =>
    if rest != [] && rest.all is_digit then .id (digits_to_nat rest)
    else .other
  | ':' :: _ => .other
  | _ => .name s

/-- The registry a rule ends up linked into (or none at all). -/
inductive LinkTarget where
  | wildcard_matches
  | driver_matches
  | peer_matches (id : Nat)
  | name_matches (name : CStr)
  | unlinked

/-- Result of linking: the chosen registry and the rule keys after the
call (the future-id branch updates `rule->keys.filter.sender`). -/
structure LinkOutcome where
  target : LinkTarget
  keys : MatchRuleKeys

/-- `peer_link_match` from src/peer.c, branch for branch.  `bus` is
`peer->bus->peers`.  The `monitor` flag only selects the list inside
the chosen registry (`match_rule_link`) and does not affect which
registry is chosen, so it is not a parameter here; the owner's rule
tree is untouched by this function in the source, linking only touches
`rule->registry_link`. -/
def peer_link_match (bus : PeerRegistry) (keys : MatchRuleKeys) :
    LinkOutcome :=
  match keys.sender with
  | none => ⟨.wildcard_matches, keys⟩
  | some s =>
    if s == "org.freedesktop.DBus".data then ⟨.driver_matches, keys⟩
    else
      match address_from_string s with
      | .id n =>
        match peer_registry_find_peer bus n with
        | some _ => ⟨.peer_matches n, keys⟩
        | none =>
          if n ≥ bus.ids then
            ⟨.wildcard_matches,
              { keys with filter := { keys.filter with sender := n } }⟩
          else ⟨.unlinked, keys⟩
      | .name _ => ⟨.name_matches s, keys⟩
      | .other => ⟨.name_matches s, keys⟩

/-- The `MATCH_E_*` codes of match.h; `NOTRECOVERABLE` stands for the
`error_origin(-ENOTRECOVERABLE)` escape of `match_rule_keys_parse`
(reached in this model only when fuel runs out, mirroring the source's
"this should not be possible" branch). -/
inductive MatchError where
  | EOF
  | INVALID
  | QUOTA
  | NOT_FOUND
  | NOTRECOVERABLE
deriving DecidableEq, Repr

/-- The whitespace set `" \t\n\r"` used by `match_rule_key_read`. -/
def is_match_space (c : Char) : Bool :=
  c == ' ' || c == '\t' || c == '\n' || c == '\r'

/-- The apostrophe, `'\''` in the C source. -/
def quoteChar : Char := Char.ofNat 39

/-- The string terminator `'\0'`. -/
def nulChar : Char := Char.ofNat 0

/-- Result of `match_rule_key_read` (src/match.c): end of input, a
parse error, or a key together with the input remaining after the
equals sign. -/
inductive KeyRead where
  | eof
  | invalid
  | ok (key : CStr) (rest : CStr)
deriving DecidableEq, Repr

/-- `match_rule_key_read` from src/match.c: skip leading whitespace
and stray equals signs, take the key up to whitespace or `=` (hitting
the end of input there is invalid), skip trailing whitespace, and
require and consume the `=`. -/
def match_rule_key_read (m : CStr) : KeyRead :=
  let m1 := m.dropWhile fun c => is_match_space c || c == '='
  if m1.isEmpty then .eof
  else
    let key := m1.takeWhile fun c => !(is_match_space c || c == '=')
    let m2 := m1.drop key.length
    if m2.isEmpty then .invalid
    else
      match m2.dropWhile is_match_space with
      | '=' :: rest => .ok key rest
      | _ => .invalid

/-- The quote-toggling loop at the head of `match_string_value_pop`:
`while (**match == '\'') { (*match)++; *quoted = !*quoted; }`. -/
def pop_quotes : CStr → Bool → CStr × Bool
  | [], q => ([], q)
  | c :: rest, q =>
    if c == quoteChar then pop_quotes rest (!q) else (c :: rest, q)

/-- `match_string_value_pop` from src/match.c: skip quotes (toggling
the quoted flag), then produce one character of the value: NUL at end
of input, a comma ends the value outside quotes and is literal inside,
a backslash escapes an apostrophe only outside quotes, anything else
is literal.  Returns the produced character, the remaining input and
the updated quoted flag. -/
def match_string_value_pop (m : CStr) (q : Bool) : Char × CStr × Bool :=
  match pop_quotes m q with
  | (m1, q1) =>
    match m1 with
    | [] => (nulChar, [], q1)
    | ',' :: rest => if q1 then (',', rest, q1) else (nulChar, rest, q1)
    | '\\' :: rest =>
      match rest with
      | c2 :: rest2 =>
        if !q1 && (c2 == quoteChar) then (quoteChar, rest2, q1)
        else ('\\', rest, q1)
      | [] => ('\\', [], q1)
    | c :: rest => (c, rest, q1)

/-- The value-collection loop of `match_rule_keys_parse`:
`do { c = match_string_value_pop(...); buffer[i++] = c; } while (c);`
gathered into the value written to the buffer (without the
terminator), the remaining input and the final quoted flag.  The fuel
is bounded by the input length since every produced non-NUL character
consumes input; genuine C strings contain no NUL byte. -/
def collect_value : Nat → CStr → Bool → CStr × CStr × Bool
  | 0, m, q => ([], m, q)
  | fuel + 1, m, q =>
    match match_string_value_pop m q with
    | (c, m1, q1) =>
      if c == nulChar then ([], m1, q1)
      else
        match collect_value fuel m1 q1 with
        | (v, m2, q2) => (c :: v, m2, q2)

/-- The value-collection loop with its fuel instantiated: one pop per
input character plus the terminating pop always suffices. -/
def collect_value_full (m : CStr) : CStr × CStr × Bool :=
  collect_value (m.length + 1) m false

/-- `match_key_equal(key1, key2, n_key2)` from src/match.c: the
length-delimited key slice equals the literal. -/
def match_key_equal (a b : CStr) : Bool := a == b

/-- The digit-reading loop of the `argN`/`argNpath` branch of
`match_rule_keys_assign`: read at most two leading decimal digits of
the remainder after `"arg"`, returning the accumulated index and the
unconsumed suffix. -/
def arg_digits : CStr → Nat × CStr
  | [] => (0, [])
  | c1 :: rest1 =>
    if is_digit c1 then
      match rest1 with
      | [] => (c1.toNat - 48, [])
      | c2 :: rest2 =>
        if is_digit c2 then
          ((c1.toNat - 48) * 10 + (c2.toNat - 48), rest2)
        else (c1.toNat - 48, rest1)
    else (0, c1 :: rest1)

/-- The id carried by a unique-id address, `ADDRESS_ID_INVALID` for
any other address type (the `destination` branch of
`match_rule_keys_assign`). -/
def address_id_or_invalid : Address → Nat
  | .id n => n
  | .name _ => ADDRESS_ID_INVALID
  | .other => ADDRESS_ID_INVALID

/-- The branch of the key-comparison chain of `match_rule_keys_assign`
(src/match.c) a key selects.  `argN i isPath` covers `argN`/`argNpath`
with any index the two-digit reader produces (the range check happens
in the branch body, as in the source); `unknown` covers unrecognized
keys and `arg`-prefixed keys with a suffix that is neither empty nor
`path` (the source rejects both with `MATCH_E_INVALID` whatever the
state, so the classification may fold them together). -/
inductive KeySlot where
  | type
  | sender
  | destination
  | interface
  | member
  | path
  | path_ns
  | eavesdrop
  | arg0ns
  | argN (i : Nat) (isPath : Bool)
  | unknown
deriving DecidableEq, Repr

/-- The key-comparison chain of `match_rule_keys_assign`, in source
order. -/
def key_slot (key : CStr) : KeySlot :=
  if match_key_equal "type".data key then .type
  else if match_key_equal "sender".data key then .sender
  else if match_key_equal "destination".data key then .destination
  else if match_key_equal "interface".data key then .interface
  else if match_key_equal "member".data key then .member
  else if match_key_equal "path".data key then .path
  else if match_key_equal "path_namespace".data key then .path_ns
  else if match_key_equal "eavesdrop".data key then .eavesdrop
  else if match_key_equal "arg0namespace".data key then .arg0ns
  else if 3 ≤ key.length && key.take 3 == "arg".data then
    if match_key_equal "".data (arg_digits (key.drop 3)).2 then
      .argN (arg_digits (key.drop 3)).1 false
    else if match_key_equal "path".data (arg_digits (key.drop 3)).2 then
      .argN (arg_digits (key.drop 3)).1 true
    else .unknown
  else .unknown

/-- `match_rule_keys_assign` from src/match.c, branch for branch; the
key comparisons of the source's if-chain are factored through
`key_slot`, the branch bodies are verbatim.  Every failure in the
source is `MATCH_E_INVALID`.  Note that the `eavesdrop` branch carries
no duplicate-key check: it simply overwrites the flag. -/
def match_rule_keys_assign (keys : MatchRuleKeys) (key value : CStr) :
    Except MatchError MatchRuleKeys :=
  match key_slot key with
  | .type =>
    if keys.filter.type != DBUS_MESSAGE_TYPE_INVALID then .error .INVALID
    else if value == "signal".data then
      .ok { keys with filter :=
        { keys.filter with type := DBUS_MESSAGE_TYPE_SIGNAL } }
    else if value == "method_call".data then
      .ok { keys with filter :=
        { keys.filter with type := DBUS_MESSAGE_TYPE_METHOD_CALL } }
    else if value == "method_return".data then
      .ok { keys with filter :=
        { keys.filter with type := DBUS_MESSAGE_TYPE_METHOD_RETURN } }
    else if value == "error".data then
      .ok { keys with filter :=
        { keys.filter with type := DBUS_MESSAGE_TYPE_ERROR } }
    else .error .INVALID
  | .sender =>
    if keys.sender.isSome then .error .INVALID
    else .ok { keys with sender := some value }
  | .destination =>
    if keys.destination.isSome then .error .INVALID
    else .ok { keys with
      destination := some value
      filter := { keys.filter with
        destination := address_id_or_invalid (address_from_string value) } }
  | .interface =>
    if keys.filter.interface.isSome then .error .INVALID
    else .ok { keys with filter :=
      { keys.filter with interface := some value } }
  | .member =>
    if keys.filter.member.isSome then .error .INVALID
    else .ok { keys with filter := { keys.filter with member := some value } }
  | .path =>
    if keys.filter.path.isSome || keys.path_namespace.isSome then
      .error .INVALID
    else .ok { keys with filter := { keys.filter with path := some value } }
  | .path_ns =>
    if keys.path_namespace.isSome || keys.filter.path.isSome then
      .error .INVALID
    else .ok { keys with path_namespace := some value }
  | .eavesdrop =>
    if value == "true".data then .ok { keys with eavesdrop := true }
    else if value == "false".data then .ok { keys with eavesdrop := false }
    else .error .INVALID
  | .arg0ns =>
    if keys.arg0namespace.isSome || (keys.filter.args 0).isSome ||
        (keys.filter.argpaths 0).isSome then .error .INVALID
    else .ok { keys with arg0namespace := some value }
  | .argN i isPath =>
    if i == 0 && keys.arg0namespace.isSome then .error .INVALID
    else if 63 < i then .error .INVALID
    else if (keys.filter.args i).isSome ||
        (keys.filter.argpaths i).isSome then .error .INVALID
    else if isPath then
      .ok { keys with filter := { keys.filter with argpaths :=
        (fun j => if j == i then some value else keys.filter.argpaths j) } }
    else
      .ok { keys with filter := { keys.filter with args :=
        (fun j => if j == i then some value else keys.filter.args j) } }
  | .unknown => .error .INVALID

/-- The parse loop of `match_rule_keys_parse` (src/match.c): read a
key (EOF ends the loop successfully), collect its value, reject an
unterminated quote, assign, repeat.  The fuel models the source's
`i < n_buffer` bound whose exhaustion the source deems impossible. -/
def match_rule_keys_parse_loop :
    Nat → MatchRuleKeys → CStr → Except MatchError MatchRuleKeys
  | 0, _, _ => .error .NOTRECOVERABLE
  | fuel + 1, keys, m =>
    match match_rule_key_read m with
    | .eof => .ok keys
    | .invalid => .error .INVALID
    | .ok key rest =>
      match collect_value_full rest with
      | (value, rest2, quoted) =>
        if quoted then .error .INVALID
        else
          match match_rule_keys_assign keys key value with
          | .error e => .error e
          | .ok keys2 => match_rule_keys_parse_loop fuel keys2 rest2

/-- `match_rule_keys_parse` from src/match.c.  `emptyKeys` carries the
zero-initialization of the callers plus the three sentinel stores the
parser performs up front (`type`, `filter.destination`,
`filter.sender`). -/
def match_rule_keys_parse (rule_string : CStr) :
    Except MatchError MatchRuleKeys :=
  match_rule_keys_parse_loop (rule_string.length + 1) emptyKeys rule_string

/-- The lexical phase of the same loop in isolation: the sequence of
`(key, value)` pairs the parse loop feeds to
`match_rule_keys_assign`, with the identical input-consumption and
error behavior but no assignment.  Used to state which keys appear in
a rule string. -/
def match_rule_lex_loop : Nat → CStr → Except MatchError (List (CStr × CStr))
  | 0, _ => .error .NOTRECOVERABLE
  | fuel + 1, m =>
    match match_rule_key_read m with
    | .eof => .ok []
    | .invalid => .error .INVALID
    | .ok key rest =>
      match collect_value_full rest with
      | (value, rest2, quoted) =>
        if quoted then .error .INVALID
        else
          match match_rule_lex_loop fuel rest2 with
          | .error e => .error e
          | .ok pairs => .ok ((key, value) :: pairs)

/-- The lexical phase at the same fuel as `match_rule_keys_parse`. -/
def match_rule_lex (rule_string : CStr) :
    Except MatchError (List (CStr × CStr)) :=
  match_rule_lex_loop (rule_string.length + 1) rule_string

/-- Folding `match_rule_keys_assign` over a pair list: the assignment
phase of the parse loop in isolation. -/
def match_rule_keys_assign_all :
    MatchRuleKeys → List (CStr × CStr) → Except MatchError MatchRuleKeys
  | keys, [] => .ok keys
  | keys, (key, value) :: rest =>
    match match_rule_keys_assign keys key value with
    | .error e => .error e
    | .ok keys2 => match_rule_keys_assign_all keys2 rest

/-- Whether the slot is already taken in `keys` (or inherently
unassignable), read off the duplicate/occupancy checks of
`match_rule_keys_assign`; occupancy of a slot forces the assignment of
any key selecting it to fail.  The `eavesdrop` slot is never occupied:
its branch in the source carries no such check. -/
def slot_occupied (keys : MatchRuleKeys) : KeySlot → Bool
  | .type => keys.filter.type != DBUS_MESSAGE_TYPE_INVALID
  | .sender => keys.sender.isSome
  | .destination => keys.destination.isSome
  | .interface => keys.filter.interface.isSome
  | .member => keys.filter.member.isSome
  | .path => keys.filter.path.isSome || keys.path_namespace.isSome
  | .path_ns => keys.path_namespace.isSome || keys.filter.path.isSome
  | .eavesdrop => false
  | .arg0ns => keys.arg0namespace.isSome || (keys.filter.args 0).isSome ||
      (keys.filter.argpaths 0).isSome
  | .argN i _ => (i == 0 && keys.arg0namespace.isSome) || decide (63 < i) ||
      (keys.filter.args i).isSome || (keys.filter.argpaths i).isSome
  | .unknown => true

/-- Pointwise growth of the occupancy-relevant fields of
`MatchRuleKeys`; a successful assignment only ever sets fields. -/
def KeysLe (a b : MatchRuleKeys) : Prop :=
  ((a.filter.type != DBUS_MESSAGE_TYPE_INVALID) = true →
    (b.filter.type != DBUS_MESSAGE_TYPE_INVALID) = true) ∧
  (a.sender.isSome = true → b.sender.isSome = true) ∧
  (a.destination.isSome = true → b.destination.isSome = true) ∧
  (a.filter.interface.isSome = true → b.filter.interface.isSome = true) ∧
  (a.filter.member.isSome = true → b.filter.member.isSome = true) ∧
  (a.filter.path.isSome = true → b.filter.path.isSome = true) ∧
  (a.path_namespace.isSome = true → b.path_namespace.isSome = true) ∧
  (a.arg0namespace.isSome = true → b.arg0namespace.isSome = true) ∧
  (∀ i, (a.filter.args i).isSome = true → (b.filter.args i).isSome = true) ∧
  (∀ i, (a.filter.argpaths i).isSome = true →
    (b.filter.argpaths i).isSome = true)

/-- Whether a rule string parses successfully. -/
def parse_accepts (s : CStr) : Bool :=
  match match_rule_keys_parse s with
  | .ok _ => true
  | .error _ => false

/-- The duplicate-eavesdrop rule string of claim C7. -/
def c7DupEavesdrop : CStr := "eavesdrop=true,eavesdrop=true".data

/-- A rule string in which the key `sender` appears twice. -/
def c7DupSender : CStr := "sender=:1.3,sender=:1.4".data

/-- `strcmp` on byte strings, as an `Ordering`. -/
def cstr_cmp : CStr → CStr → Ordering
  | [], [] => .eq
  | [], _ :: _ => .lt
  | _ :: _, [] => .gt
  | a :: as, b :: bs =>
    if a.toNat < b.toNat then .lt
    else if b.toNat < a.toNat then .gt
    else cstr_cmp as bs

/-- `c_string_compare` from c-string.h: NULL sorts apart from every
string (the C pointer-equality fast path covers the both-NULL case),
otherwise `strcmp`. -/
def c_string_compare (a b : Option CStr) : Ordering :=
  match a, b with
  | none, none => .eq
  | none, some _ => .lt
  | some _, none => .gt
  | some x, some y => cstr_cmp x y

/-- The `>`/`<` comparison of the C comparator on numeric and boolean
fields. -/
def bool_compare : Bool → Bool → Ordering
  | true, false => .gt
  | false, true => .lt
  | _, _ => .eq

/-- `match_rules_compare` from src/match.c: the canonical key tuple
order used by the owner's rule tree — the seven string keys, then the
message type, then the eavesdrop flag, then the 64 `arg`/`argpath`
pairs, first difference wins. -/
def match_rules_compare (k1 k2 : MatchRuleKeys) : Ordering :=
  (c_string_compare k1.sender k2.sender).then <|
  (c_string_compare k1.destination k2.destination).then <|
  (c_string_compare k1.filter.interface k2.filter.interface).then <|
  (c_string_compare k1.filter.member k2.filter.member).then <|
  (c_string_compare k1.filter.path k2.filter.path).then <|
  (c_string_compare k1.path_namespace k2.path_namespace).then <|
  (c_string_compare k1.arg0namespace k2.arg0namespace).then <|
  (compare k1.filter.type k2.filter.type).then <|
  (bool_compare k1.eavesdrop k2.eavesdrop).then <|
  (List.range 64).foldr (fun i acc =>
    (c_string_compare (k1.filter.args i) (k2.filter.args i)).then <|
    (c_string_compare (k1.filter.argpaths i) (k2.filter.argpaths i)).then acc)
    .eq

/-- Key-tuple equality under the comparator of the rule tree. -/
def keys_equal (k1 k2 : MatchRuleKeys) : Bool :=
  match_rules_compare k1 k2 == .eq

/-- A rule as held in a `MatchOwner`'s rule tree: its canonical keys
and its user reference count. -/
structure OwnedRule where
  keys : MatchRuleKeys
  n_user_refs : Nat

/-- `match_owner_ref_rule` from src/match.c with the owner's rule tree
rendered as a list keyed by `match_rules_compare`: parse the rule
string, then either bump the user refcount of the rule already holding
the same canonical key tuple (`c_rbtree_find_slot` found an occupied
slot) or insert a fresh rule with one user reference.  The user quota
charging of `match_rule_new` (`user_charge`, external to src/) is
elided. -/
def match_owner_ref_rule (owner : List OwnedRule) (rule_string : CStr) :
    Except MatchError (List OwnedRule) :=
  match match_rule_keys_parse rule_string with
  | .error e => .error e
  | .ok keys =>
    if owner.any fun r => keys_equal keys r.keys then
      .ok (owner.map fun r =>
        if keys_equal keys r.keys then
          { r with n_user_refs := r.n_user_refs + 1 }
        else r)
    else .ok ({ keys := keys, n_user_refs := 1 } :: owner)

/-- `match_rule_user_unref` from src/match.c, keyed by canonical key
tuple: decrement the rule's user refcount, and when it reaches zero
free the rule (`match_rule_free` removes it from the owner's tree). -/
def match_rule_user_unref : List OwnedRule → MatchRuleKeys → List OwnedRule
  | [], _ => []
  | r :: rest, keys =>
    if keys_equal keys r.keys then
      if r.n_user_refs == 1 then match_rule_user_unref rest keys
      else { r with n_user_refs := r.n_user_refs - 1 } ::
        match_rule_user_unref rest keys
    else r :: match_rule_user_unref rest keys

/-- An always-matching monitor rule owned by peer 3. -/
def c8Rule : RegRule := { keys := emptyKeys, owner_id := 3 }

/-- A registry whose monitor list holds exactly one rule. -/
def c8Registry : MatchRegistry :=
  { rule_list := [], eavesdrop_list := [], monitor_list := [c8Rule] }

/-- A demo peer registry: peer 3 registered, peer 5 present but not
registered, allocator at 7. -/
def demoBus : PeerRegistry :=
  { peer_tree := [{ id := 3, registered := true },
                  { id := 5, registered := false }], ids := 7 }

/-- Rule keys with `sender=':1.3'` (a registered peer). -/
def keysPeer : MatchRuleKeys := { emptyKeys with sender := some ":1.3".data }

/-- Rule keys with `sender=':1.9'` (a future id, 9 ≥ 7). -/
def keysFuture : MatchRuleKeys := { emptyKeys with sender := some ":1.9".data }

/-- Rule keys with `sender=':1.5'` (a stale id: below the allocator and
the peer with id 5 is not registered). -/
def keysStale : MatchRuleKeys := { emptyKeys with sender := some ":1.5".data }

/-- C1: `arg0namespace` matching is inverted in the code.  The spec
scenario rule `arg0namespace='a.b'` does NOT match a signal with
`args[0]="a.b.c"`, while it DOES match one whose `args[0]="a.b"` is a
prefix of the rule value — both contradicting the claim, because
src/match.c line 96 passes the rule value as the string and the
message argument as the prefix to `match_string_prefix`. -/
theorem C1_arg0namespace_code_bug :
    match_rule_keys_match_filter c1Keys c1Filter = false ∧
      match_rule_keys_match_filter c1Keys c1FilterRev = true := by
  constructor <;> rfl

/-- C2: `path_namespace` matching is inverted in the code.  A rule with
`path_namespace='/a'` does NOT match a message with path `/a/b`, while
a rule with `path_namespace='/a/b'` DOES match a message with path
`/a` — both contradicting the claim, because src/match.c line 92
passes the rule value as the string and the message path as the prefix
to `match_string_prefix`. -/
theorem C2_path_namespace_code_bug :
    match_rule_keys_match_filter c2Keys c2Filter = false ∧
      match_rule_keys_match_filter c2KeysRev c2FilterRev = true := by
  constructor <;> rfl

/-- C3: in every broadcast dispatch, a rule whose owning peer's id
equals the filter's explicit destination id is skipped, so the
destination id never appears among the receivers the dispatch enqueues
to — for any policy oracles, registry contents and filter. -/
theorem C3_broadcast_excludes_destination (send_allowed recv_allowed :
    Nat → Bool) (registry : MatchRegistry) (filter : MatchFilter) :
    (peer_broadcast_to_matches send_allowed recv_allowed registry
      filter).all (fun id => id != filter.destination) = true := by
  rw [List.all_eq_true]
  intro id hid
  unfold peer_broadcast_to_matches at hid
  obtain ⟨rule, hmem, hrule⟩ := List.mem_filterMap.mp hid
  by_cases hdest : filter.destination == rule.owner_id
  · simp [hdest] at hrule
  · simp only [hdest, if_false] at hrule
    by_cases hsend : send_allowed rule.owner_id
    · by_cases hrecv : recv_allowed rule.owner_id
      · simp only [hsend, hrecv] at hrule
        simp at hrule
        subst hrule
        rw [bne_iff_ne]
        intro he
        exact hdest (by simp [he])
      · simp [hrecv] at hrule
    · simp [hsend] at hrule

/-- C8: the monitor iteration misses the last element of the monitor
list.  With a single always-matching monitor rule in the registry, the
iteration yields nothing even though the rule's keys match the filter,
so a monitor does not receive all traffic its rule selects. -/
theorem C8_monitor_last_rule_code_bug :
    match_rule_next_monitor_match_list c8Registry c1Filter = [] ∧
      match_rule_keys_match_filter c8Rule.keys c1Filter = true := by
  constructor <;> rfl

/-- C6: the connection-queue error branch of `peer_queue_call` tests
the constant `CONNECTION_E_QUOTA` for truthiness instead of comparing
it with the returned code, so a non-QUOTA connection error (code 2
here, while `CONNECTION_E_QUOTA` is 1) is also surfaced as
`PEER_E_QUOTA` instead of being folded, contradicting the claimed
"QUOTA iff the connection returns QUOTA". -/
theorem C6_queue_call_quota_code_bug :
    peer_queue_call 0 0 0 2 DBUS_MESSAGE_TYPE_METHOD_CALL false true =
        .QUOTA ∧
      (2 : Nat) ≠ CONNECTION_E_QUOTA := by
  exact ⟨rfl, by decide⟩

/-- C9: `peer_request_name` and `peer_release_name` reject the
reserved name `org.freedesktop.DBus` with `PEER_E_NAME_RESERVED` and
any name starting with `':'` with `PEER_E_NAME_UNIQUE`, in both cases
before the policy gate or the name registry is reached (the Booleans
in the result record whether those collaborators were consulted), for
arbitrary oracle outcomes. -/
theorem C9_reserved_unique_names (check_own registry_request
    registry_release : Nat) (name : CStr) :
    (name = "org.freedesktop.DBus".data →
      peer_request_name check_own registry_request name =
          (.NAME_RESERVED, false, false) ∧
        peer_release_name registry_release name = (.NAME_RESERVED, false)) ∧
    (name.head? = some ':' →
      peer_request_name check_own registry_request name =
          (.NAME_UNIQUE, false, false) ∧
        peer_release_name registry_release name = (.NAME_UNIQUE, false)) := by
  constructor
  · intro h
    subst h
    exact ⟨rfl, rfl⟩
  · intro h
    have hne : (name == "org.freedesktop.DBus".data) = false := by
      rw [beq_eq_false_iff_ne]
      intro he
      rw [he] at h
      simp at h
    constructor
    · unfold peer_request_name
      rw [hne]
      simp [h]
    · unfold peer_release_name
      rw [hne]
      simp [h]

/-- Witness for C9 at the two concrete names of the claim. -/
theorem C9_reserved_unique_names_witness :
    peer_request_name 0 0 "org.freedesktop.DBus".data =
        (.NAME_RESERVED, false, false) ∧
      peer_release_name 0 ":1.5".data = (.NAME_UNIQUE, false) :=
  ⟨((C9_reserved_unique_names 0 0 0 "org.freedesktop.DBus".data).1 rfl).1,
    ((C9_reserved_unique_names 0 0 0 ":1.5".data).2 rfl).2⟩

/-- C10: under the tree invariant that peer ids are pairwise distinct,
`peer_registry_find_peer` returns a peer exactly when a peer with that
id sits in the tree with its `registered` flag set, and the returned
peer is that tree entry; an existing but unregistered peer is
invisible. -/
theorem C10_find_peer_registered (registry : PeerRegistry) (id : Nat)
    (huniq : registry.peer_tree.Pairwise (fun a b => a.id ≠ b.id)) :
    (∀ p, peer_registry_find_peer registry id = some p →
      p.id = id ∧ p.registered = true ∧ p ∈ registry.peer_tree) ∧
    ((peer_registry_find_peer registry id).isSome = true ↔
      ∃ p ∈ registry.peer_tree, p.id = id ∧ p.registered = true) := by
  constructor
  · intro p hp
    unfold peer_registry_find_peer at hp
    split at hp
    next q hfind =>
      split at hp
      next hreg =>
        cases hp
        exact ⟨by simpa using List.find?_some hfind, hreg,
          List.mem_of_find?_eq_some hfind⟩
      next => cases hp
    next => cases hp
  · constructor
    · intro hs
      unfold peer_registry_find_peer at hs
      split at hs
      next q hfind =>
        split at hs
        next hreg =>
          exact ⟨q, List.mem_of_find?_eq_some hfind,
            by simpa using List.find?_some hfind, hreg⟩
        next => cases hs
      next => cases hs
    · rintro ⟨p, hmem, hid, hreg⟩
      unfold peer_registry_find_peer
      split
      next q hfind =>
        have hq : q.id = id := by simpa using List.find?_some hfind
        have hqmem : q ∈ registry.peer_tree := List.mem_of_find?_eq_some hfind
        have hqp : q = p := by
          by_contra hne
          exact (List.Pairwise.forall (fun _ _ hab => Ne.symm hab)
            huniq hqmem hmem hne) (by rw [hq, hid])
        rw [if_pos (hqp ▸ hreg)]
        rfl
      next hfind =>
        have := List.find?_eq_none.mp hfind p hmem
        simp [hid] at this

/-- Witness for C10: in `demoBus`, id 5 exists but is unregistered and
is invisible, while id 3 is registered and found. -/
theorem C10_find_peer_registered_witness :
    ((peer_registry_find_peer demoBus 3).isSome = true) ∧
      peer_registry_find_peer demoBus 5 = none :=
  ⟨((C10_find_peer_registered demoBus 3 (by decide)).2).mpr
      ⟨{ id := 3, registered := true }, by decide, rfl, rfl⟩,
    rfl⟩

/-- C4: linking a rule whose sender key is a unique-id address `:1.n`:
if a registered peer with id `n` exists, the rule is linked into that
peer's matches registry; if `n` is at or beyond the id allocator, the
rule goes to the wildcard registry with the rule's filter sender id set
to `n`; if `n` is below the allocator and no registered peer has it,
the rule is linked into no registry at all and its keys are left
untouched. -/
theorem C4_link_match_unique_id (bus : PeerRegistry)
    (keys : MatchRuleKeys) (s : CStr) (n : Nat)
    (hs : keys.sender = some s)
    (hdbus : (s == "org.freedesktop.DBus".data) = false)
    (haddr : address_from_string s = .id n) :
    ((peer_registry_find_peer bus n).isSome = true →
      peer_link_match bus keys = ⟨.peer_matches n, keys⟩) ∧
    (peer_registry_find_peer bus n = none → bus.ids ≤ n →
      (peer_link_match bus keys).target = .wildcard_matches ∧
        (peer_link_match bus keys).keys.filter.sender = n) ∧
    (peer_registry_find_peer bus n = none → n < bus.ids →
      peer_link_match bus keys = ⟨.unlinked, keys⟩) := by
  have hcond : ¬((s == "org.freedesktop.DBus".data) = true) := by
    simp [hdbus]
  refine ⟨fun hfound => ?_, fun hmiss hfut => ?_, fun hmiss hstale => ?_⟩
  · unfold peer_link_match
    rw [hs]
    simp only [if_neg hcond, haddr]
    cases hfp : peer_registry_find_peer bus n with
    | none => rw [hfp] at hfound; cases hfound
    | some p => simp only [hfp]
  · unfold peer_link_match
    rw [hs]
    simp only [if_neg hcond, haddr, hmiss]
    rw [if_pos hfut]
    exact ⟨rfl, rfl⟩
  · unfold peer_link_match
    rw [hs]
    simp only [if_neg hcond, haddr, hmiss]
    rw [if_neg (show ¬n ≥ bus.ids by omega)]

/-- Witness for C4 covering all three branches against `demoBus`:
`:1.3` is registered, `:1.9` is future (allocator at 7), `:1.5` is
stale (present but unregistered, below the allocator). -/
theorem C4_link_match_unique_id_witness :
    peer_link_match demoBus keysPeer = ⟨.peer_matches 3, keysPeer⟩ ∧
      ((peer_link_match demoBus keysFuture).target = .wildcard_matches ∧
        (peer_link_match demoBus keysFuture).keys.filter.sender = 9) ∧
      peer_link_match demoBus keysStale = ⟨.unlinked, keysStale⟩ :=
  ⟨(C4_link_match_unique_id demoBus keysPeer ":1.3".data 3 rfl rfl rfl).1 rfl,
    (C4_link_match_unique_id demoBus keysFuture ":1.9".data 9 rfl rfl
      rfl).2.1 rfl (by decide),
    (C4_link_match_unique_id demoBus keysStale ":1.5".data 5 rfl rfl
      rfl).2.2 rfl (by decide)⟩


set_option maxHeartbeats 1600000 in
/-- A failed `match_rule_keys_assign` always reports `MATCH_E_INVALID`. -/
lemma assign_error_eq (keys : MatchRuleKeys) (key value : CStr)
    (e : MatchError)
    (h : match_rule_keys_assign keys key value = .error e) : e = .INVALID := by
  unfold match_rule_keys_assign at h
  cases hs : key_slot key <;> rw [hs] at h <;> simp only at h <;>
    (try split_ifs at h) <;>
    (injection h with h1; exact h1.symm)

set_option maxHeartbeats 1600000 in
/-- A successful `match_rule_keys_assign` only ever sets fields. -/
lemma assign_keysLe (keys keys2 : MatchRuleKeys) (key value : CStr)
    (h : match_rule_keys_assign keys key value = .ok keys2) :
    KeysLe keys keys2 := by
  unfold match_rule_keys_assign at h
  cases hs : key_slot key <;> rw [hs] at h <;> simp only at h <;>
    (try split_ifs at h) <;>
    first
    | exact Except.noConfusion h
    | (injection h with h1
       subst h1
       refine ⟨?_, ?_, ?_, ?_, ?_, ?_, ?_, ?_, ?_, ?_⟩ <;>
         first
         | exact fun hx => hx
         | exact fun hx => rfl
         | exact fun _ => by decide
         | exact fun i hi => hi
         | (intro i hi
            dsimp only
            split <;> simp_all))

set_option maxHeartbeats 1600000 in
/-- An occupied slot makes the assignment of any key selecting it fail
with `MATCH_E_INVALID`, whatever the value. -/
lemma assign_of_occupied (keys : MatchRuleKeys) (key value : CStr)
    (h : slot_occupied keys (key_slot key) = true) :
    match_rule_keys_assign keys key value = .error .INVALID := by
  unfold match_rule_keys_assign
  cases hs : key_slot key <;> rw [hs] at h <;>
    simp only [slot_occupied] at h
  case type => simp only; rw [if_pos h]
  case sender => simp only; rw [if_pos h]
  case destination => simp only; rw [if_pos h]
  case interface => simp only; rw [if_pos h]
  case member => simp only; rw [if_pos h]
  case path => simp only; rw [if_pos h]
  case path_ns => simp only; rw [if_pos h]
  case eavesdrop => cases h
  case arg0ns => simp only; rw [if_pos h]
  case argN i isPath =>
    simp only
    by_cases c1 : (i == 0 && keys.arg0namespace.isSome) = true
    · rw [if_pos c1]
    · rw [if_neg c1]
      by_cases c2 : 63 < i
      · rw [if_pos c2]
      · rw [if_neg c2]
        by_cases c3 : ((keys.filter.args i).isSome ||
            (keys.filter.argpaths i).isSome) = true
        · rw [if_pos c3]
        · simp [c1, c2, c3] at h

set_option maxHeartbeats 1600000 in
/-- A successful assignment of a key whose slot is not `eavesdrop`
leaves that slot occupied. -/
lemma occupied_of_assign (keys keys2 : MatchRuleKeys) (key value : CStr)
    (hne : key_slot key ≠ .eavesdrop)
    (h : match_rule_keys_assign keys key value = .ok keys2) :
    slot_occupied keys2 (key_slot key) = true := by
  unfold match_rule_keys_assign at h
  cases hs : key_slot key <;> rw [hs] at h <;> simp only at h
  case eavesdrop => exact absurd hs hne
  all_goals
    (try split_ifs at h) <;>
    first
    | exact Except.noConfusion h
    | (injection h with h1
       subst h1
       first
       | rfl
       | simp [slot_occupied])

/-- Occupancy of any slot survives any further successful
assignment. -/
lemma occupied_mono (keys keys2 : MatchRuleKeys) (s : KeySlot)
    (key2 value2 : CStr)
    (hocc : slot_occupied keys s = true)
    (h : match_rule_keys_assign keys key2 value2 = .ok keys2) :
    slot_occupied keys2 s = true := by
  obtain ⟨l1, l2, l3, l4, l5, l6, l7, l8, l9, l10⟩ :=
    assign_keysLe keys keys2 key2 value2 h
  cases s <;> simp only [slot_occupied, Bool.or_eq_true] at hocc ⊢
  case type => exact l1 hocc
  case sender => exact l2 hocc
  case destination => exact l3 hocc
  case interface => exact l4 hocc
  case member => exact l5 hocc
  case path =>
    rcases hocc with h1 | h1
    · exact Or.inl (l6 h1)
    · exact Or.inr (l7 h1)
  case path_ns =>
    rcases hocc with h1 | h1
    · exact Or.inl (l7 h1)
    · exact Or.inr (l6 h1)
  case eavesdrop => cases hocc
  case arg0ns =>
    rcases hocc with (h1 | h1) | h1
    · exact Or.inl (Or.inl (l8 h1))
    · exact Or.inl (Or.inr (l9 0 h1))
    · exact Or.inr (l10 0 h1)
  case argN i isPath =>
    rcases hocc with ((h1 | h1) | h1) | h1
    · refine Or.inl (Or.inl (Or.inl ?_))
      rw [Bool.and_eq_true] at h1 ⊢
      exact ⟨h1.1, l8 h1.2⟩
    · exact Or.inl (Or.inl (Or.inr h1))
    · exact Or.inl (Or.inr (l9 i h1))
    · exact Or.inr (l10 i h1)

/-- Folding assignments over a pair list containing a key whose slot
is already occupied yields `MATCH_E_INVALID`. -/
lemma assign_all_error_of_occupied (pairs : List (CStr × CStr)) :
    ∀ (keys : MatchRuleKeys) (k : CStr),
      slot_occupied keys (key_slot k) = true →
      (∃ q ∈ pairs, q.1 = k) →
      match_rule_keys_assign_all keys pairs = .error .INVALID := by
  induction pairs with
  | nil =>
    intro keys k hocc hmem
    simp at hmem
  | cons p rest ih =>
    intro keys k hocc hmem
    obtain ⟨k2, v2⟩ := p
    unfold match_rule_keys_assign_all
    cases hasgn : match_rule_keys_assign keys k2 v2 with
    | error e =>
      simp only
      rw [assign_error_eq keys k2 v2 e hasgn]
    | ok keysB =>
      simp only
      rcases hmem with ⟨q, hq, hqk⟩
      rcases List.mem_cons.mp hq with heq | hqrest
      · rw [heq] at hqk
        simp only at hqk
        subst hqk
        rw [assign_of_occupied keys k2 v2 hocc] at hasgn
        cases hasgn
      · exact ih keysB k (occupied_mono keys keysB (key_slot k) k2 v2
          hocc hasgn) ⟨q, hqrest, hqk⟩

/-- Folding assignments over a pair list in which a key whose slot is
not `eavesdrop` occurs twice yields `MATCH_E_INVALID`. -/
lemma assign_all_dup_invalid (p1 : List (CStr × CStr)) :
    ∀ (keys : MatchRuleKeys) (k v : CStr) (p2 : List (CStr × CStr)),
      key_slot k ≠ .eavesdrop →
      (∃ q ∈ p2, q.1 = k) →
      match_rule_keys_assign_all keys (p1 ++ (k, v) :: p2) =
        .error .INVALID := by
  induction p1 with
  | nil =>
    intro keys k v p2 hne hmem
    simp only [List.nil_append]
    unfold match_rule_keys_assign_all
    cases hasgn : match_rule_keys_assign keys k v with
    | error e =>
      simp only
      rw [assign_error_eq keys k v e hasgn]
    | ok keysB =>
      simp only
      exact assign_all_error_of_occupied p2 keysB k
        (occupied_of_assign keys keysB k v hne hasgn) hmem
  | cons p rest ih =>
    intro keys k v p2 hne hmem
    obtain ⟨k2, v2⟩ := p
    simp only [List.cons_append]
    unfold match_rule_keys_assign_all
    cases hasgn : match_rule_keys_assign keys k2 v2 with
    | error e =>
      simp only
      rw [assign_error_eq keys k2 v2 e hasgn]
    | ok keysB =>
      simp only
      exact ih keysB k v p2 hne hmem

/-- When lexing succeeds, the parse loop is exactly the assignment
fold over the lexed pairs (the two loops consume input identically; on
an assignment failure the parse loop stops with that error, which the
fold reproduces). -/
lemma parse_loop_eq_assign_all (fuel : Nat) :
    ∀ (keys : MatchRuleKeys) (m : CStr) (pairs : List (CStr × CStr)),
      match_rule_lex_loop fuel m = .ok pairs →
      match_rule_keys_parse_loop fuel keys m =
        match_rule_keys_assign_all keys pairs := by
  induction fuel with
  | zero =>
    intro keys m pairs h
    simp [match_rule_lex_loop] at h
  | succ fuel ih =>
    intro keys m pairs h
    unfold match_rule_lex_loop at h
    unfold match_rule_keys_parse_loop
    cases hkr : match_rule_key_read m with
    | eof =>
      rw [hkr] at h
      simp only at h
      injection h with h1
      subst h1
      rfl
    | invalid =>
      rw [hkr] at h
      simp only at h
      cases h
    | ok key rest =>
      rw [hkr] at h
      simp only at h ⊢
      rcases hcv : collect_value_full rest with ⟨value, rest2, quoted⟩
      rw [hcv] at h
      dsimp only at h ⊢
      by_cases hq : quoted = true
      · rw [if_pos hq] at h
        cases h
      · rw [if_neg hq] at h ⊢
        cases hlex : match_rule_lex_loop fuel rest2 with
        | error e =>
          rw [hlex] at h
          simp only at h
          cases h
        | ok ps =>
          rw [hlex] at h
          simp only at h
          injection h with h1
          subst h1
          cases hasgn : match_rule_keys_assign keys key value with
          | error e =>
            simp only [hasgn, match_rule_keys_assign_all]
          | ok keysB =>
            simp only [hasgn, match_rule_keys_assign_all]
            exact ih keysB rest2 ps hlex

set_option maxHeartbeats 1600000 in
/-- A key not spelled `eavesdrop` never selects the eavesdrop slot. -/
lemma key_slot_ne_eavesdrop (k : CStr) (hne : k ≠ "eavesdrop".data) :
    key_slot k ≠ KeySlot.eavesdrop := by
  intro h
  unfold key_slot at h
  by_cases c1 : match_key_equal "type".data k = true
  · rw [if_pos c1] at h; cases h
  · rw [if_neg c1] at h
    by_cases c2 : match_key_equal "sender".data k = true
    · rw [if_pos c2] at h; cases h
    · rw [if_neg c2] at h
      by_cases c3 : match_key_equal "destination".data k = true
      · rw [if_pos c3] at h; cases h
      · rw [if_neg c3] at h
        by_cases c4 : match_key_equal "interface".data k = true
        · rw [if_pos c4] at h; cases h
        · rw [if_neg c4] at h
          by_cases c5 : match_key_equal "member".data k = true
          · rw [if_pos c5] at h; cases h
          · rw [if_neg c5] at h
            by_cases c6 : match_key_equal "path".data k = true
            · rw [if_pos c6] at h; cases h
            · rw [if_neg c6] at h
              by_cases c7 : match_key_equal "path_namespace".data k = true
              · rw [if_pos c7] at h; cases h
              · rw [if_neg c7] at h
                by_cases c8 : match_key_equal "eavesdrop".data k = true
                · exact hne (eq_of_beq c8).symm
                · rw [if_neg c8] at h
                  by_cases c9 : match_key_equal "arg0namespace".data k = true
                  · rw [if_pos c9] at h; cases h
                  · rw [if_neg c9] at h
                    by_cases c10 :
                        (decide (3 ≤ k.length) && k.take 3 == "arg".data) = true
                    · rw [if_pos c10] at h
                      by_cases c11 :
                          match_key_equal "".data (arg_digits (k.drop 3)).2 =
                            true
                      · rw [if_pos c11] at h; cases h
                      · rw [if_neg c11] at h
                        by_cases c12 :
                            match_key_equal "path".data
                              (arg_digits (k.drop 3)).2 = true
                        · rw [if_pos c12] at h; cases h
                        · rw [if_neg c12] at h; cases h
                    · rw [if_neg c10] at h; cases h

set_option maxHeartbeats 4000000 in
/-- C7 counterexample: the rule string `eavesdrop=true,eavesdrop=true`
repeats the recognized key `eavesdrop` (as its lexing shows), yet
`match_rule_keys_parse` accepts it instead of returning
`MATCH_E_INVALID`: the eavesdrop branch of `match_rule_keys_assign`
carries no duplicate check. -/
theorem C7_duplicate_eavesdrop_counterexample :
    parse_accepts c7DupEavesdrop = true ∧
      match_rule_lex c7DupEavesdrop =
        .ok [("eavesdrop".data, "true".data),
             ("eavesdrop".data, "true".data)] := by
  constructor
  · rfl
  · rfl

/-- C7 amended: for every rule string whose lexing succeeds and
contains the same key twice, where that key is not `eavesdrop`,
`match_rule_keys_parse` returns `MATCH_E_INVALID`.  (A repeated
`eavesdrop` key is accepted; the counterexample shows the original
claim fails there.) -/
theorem C7_duplicate_key_invalid_amended (m : CStr)
    (pairs p1 p2 : List (CStr × CStr)) (k v : CStr)
    (hlex : match_rule_lex m = .ok pairs)
    (hsplit : pairs = p1 ++ (k, v) :: p2)
    (hdup : ∃ q ∈ p2, q.1 = k)
    (hne : k ≠ "eavesdrop".data) :
    match_rule_keys_parse m = .error .INVALID := by
  unfold match_rule_keys_parse
  unfold match_rule_lex at hlex
  rw [parse_loop_eq_assign_all (m.length + 1) emptyKeys m pairs hlex, hsplit]
  exact assign_all_dup_invalid p1 emptyKeys k v p2
    (key_slot_ne_eavesdrop k hne) hdup

set_option maxHeartbeats 4000000 in
/-- Witness for C7 at the rule string `sender=:1.3,sender=:1.4`. -/
theorem C7_duplicate_key_invalid_amended_witness :
    match_rule_keys_parse c7DupSender = .error .INVALID :=
  C7_duplicate_key_invalid_amended c7DupSender
    [("sender".data, ":1.3".data), ("sender".data, ":1.4".data)]
    [] [("sender".data, ":1.4".data)] "sender".data ":1.3".data
    (by rfl) rfl ⟨("sender".data, ":1.4".data), by simp, rfl⟩ (by decide)

/-- Bumping the refcount of the unique rule matching a key tuple and
then unrefing that tuple restores the owner exactly. -/
lemma c5_unref_bump (keysX : MatchRuleKeys) (r : OwnedRule)
    (hpos : 0 < r.n_user_refs) :
    ∀ owner : List OwnedRule,
      (∀ q ∈ owner, keys_equal keysX q.keys = true → q = r) →
      match_rule_user_unref
        (owner.map fun q =>
          if keys_equal keysX q.keys then
            { keys := q.keys, n_user_refs := q.n_user_refs + 1 }
          else q)
        keysX = owner := by
  intro owner
  induction owner with
  | nil => intro _; rfl
  | cons q rest ih =>
    intro huniq
    have hrest : ∀ p ∈ rest, keys_equal keysX p.keys = true → p = r :=
      fun p hp hk => huniq p (List.mem_cons_of_mem q hp) hk
    by_cases hq : keys_equal keysX q.keys = true
    · have hqr : q = r := huniq q (List.mem_cons_self q rest) hq
      simp only [List.map_cons, if_pos hq]
      unfold match_rule_user_unref
      rw [if_pos hq]
      have hne1 : (q.n_user_refs + 1 == 1) = false := by
        have : 0 < q.n_user_refs := hqr ▸ hpos
        simp only [beq_eq_false_iff_ne, ne_eq]
        omega
      rw [hne1]
      simp only [Bool.false_eq_true, if_false]
      rw [ih hrest]
      rfl
    · simp only [List.map_cons, if_neg hq]
      unfold match_rule_user_unref
      rw [if_neg hq, ih hrest]

/-- Unrefing a key tuple whose every matching rule holds a single user
reference removes exactly the matching rules. -/
lemma c5_unref_free (keysX : MatchRuleKeys) :
    ∀ owner : List OwnedRule,
      (∀ q ∈ owner, keys_equal keysX q.keys = true → q.n_user_refs = 1) →
      match_rule_user_unref owner keysX =
        owner.filter fun q => !(keys_equal keysX q.keys) := by
  intro owner
  induction owner with
  | nil => intro _; rfl
  | cons q rest ih =>
    intro hall
    have hrest : ∀ p ∈ rest, keys_equal keysX p.keys = true →
        p.n_user_refs = 1 :=
      fun p hp hk => hall p (List.mem_cons_of_mem q hp) hk
    unfold match_rule_user_unref
    by_cases hq : keys_equal keysX q.keys = true
    · rw [if_pos hq]
      have h1 : (q.n_user_refs == 1) = true := by
        rw [beq_iff_eq]
        exact hall q (List.mem_cons_self q rest) hq
      rw [h1]
      simp only [if_true]
      rw [ih hrest, List.filter_cons]
      simp [hq]
    · rw [if_neg hq, ih hrest, List.filter_cons]
      simp [hq]

/-- C5: for every owner whose rule tree holds at most one rule per
canonical key tuple, re-adding a rule string whose parsed keys equal
an existing rule's keys inserts nothing: the owner keeps the same
number of rules, every other rule is untouched, and the matching
rule's `n_user_refs` is incremented; `match_rule_user_unref` undoes
the increment exactly, and when the count stands at one the unref
frees the rule, removing it from the owner. -/
theorem C5_owner_dedup_refcount (owner : List OwnedRule) (s : CStr)
    (keys : MatchRuleKeys) (r : OwnedRule)
    (hp : match_rule_keys_parse s = .ok keys)
    (hmem : r ∈ owner)
    (hkeq : keys_equal keys r.keys = true)
    (huniq : ∀ q ∈ owner, keys_equal keys q.keys = true → q = r)
    (hpos : 0 < r.n_user_refs) :
    match_owner_ref_rule owner s =
        .ok (owner.map fun q =>
          if keys_equal keys q.keys then
            { keys := q.keys, n_user_refs := q.n_user_refs + 1 }
          else q) ∧
      (owner.map fun q =>
          if keys_equal keys q.keys then
            { keys := q.keys, n_user_refs := q.n_user_refs + 1 }
          else q).length = owner.length ∧
      { keys := r.keys, n_user_refs := r.n_user_refs + 1 } ∈
        (owner.map fun q =>
          if keys_equal keys q.keys then
            { keys := q.keys, n_user_refs := q.n_user_refs + 1 }
          else q) ∧
      (∀ q ∈ owner, keys_equal keys q.keys = false →
        q ∈ (owner.map fun q =>
          if keys_equal keys q.keys then
            { keys := q.keys, n_user_refs := q.n_user_refs + 1 }
          else q)) ∧
      match_rule_user_unref
        (owner.map fun q =>
          if keys_equal keys q.keys then
            { keys := q.keys, n_user_refs := q.n_user_refs + 1 }
          else q) keys = owner ∧
      (r.n_user_refs = 1 →
        match_rule_user_unref owner keys =
          owner.filter fun q => !(keys_equal keys q.keys)) := by
  refine ⟨?_, List.length_map owner _, ?_, ?_, ?_, ?_⟩
  · unfold match_owner_ref_rule
    rw [hp]
    simp only
    rw [if_pos (List.any_eq_true.mpr ⟨r, hmem, hkeq⟩)]
  · refine List.mem_map.mpr ⟨r, hmem, ?_⟩
    rw [if_pos hkeq]
  · intro q hq hkne
    refine List.mem_map.mpr ⟨q, hq, ?_⟩
    rw [hkne]
    simp
  · exact c5_unref_bump keys r hpos owner huniq
  · intro h1
    refine c5_unref_free keys owner fun q hq hk => ?_
    rw [huniq q hq hk]
    exact h1

/-- Witness for C5: an owner holding the parsed keys of
`type='signal'` with two user refs (plus an unrelated rule), re-added
and unrefed. -/
theorem C5_owner_dedup_refcount_witness :
    match_owner_ref_rule
        [{ keys := c1SignalKeys, n_user_refs := 2 }] "type='signal'".data =
      .ok [{ keys := c1SignalKeys, n_user_refs := 3 }] := by
  have h := C5_owner_dedup_refcount
    [{ keys := c1SignalKeys, n_user_refs := 2 }]
    "type='signal'".data c1SignalKeys
    { keys := c1SignalKeys, n_user_refs := 2 }
    (by rfl) (by simp) (by rfl)
    (by
      intro q hq hk
      rcases List.mem_cons.mp hq with h1 | h1
      · exact h1
      · simp at h1)
    (by decide)
  rw [h.1]
  rfl
